import Mathlib

/-!
# Listing Filter & Query Composition — verification development

Shallow embedding of the filter-and-search data layer of the real-estate
modules:

* the Local Predicate Filter (`frontend/src/lib/storage.ts`:
  `filterProperties`, `createProperty`, `updateProperty`, `deleteProperty`),
* the Remote Query Builder (`repositories/propertyRepository.ts`:
  `buildWhereClause`, `propertyRepository.findAll` / `.delete`, together with
  the controller decode step `controllers/propertyController.ts`:
  `getAllProperties`),
* the Query Param Codec (`frontend/src/lib/api.ts`: `getAllProperties`
  query-parameter construction, and the controller decode step).

Conventions of the embedding:

* TypeScript strings are Lean `String`s; TS numbers occurring in filter
  criteria are `JsNumber` (an integer or NaN — the values reachable from the
  code paths under study); numeric fields of stored listings are `Int`.
* ISO-8601 timestamp strings are modelled by the instant they denote
  (an `Int`, as produced by `Date.getTime()`); the code only ever compares
  timestamps through `Date.getTime()`.
* `localStorage` is the state `Option (List Property)` (`none` = key absent);
  JSON (de)serialisation is the identity on that state.
* External JS primitives used by the code (`String.prototype.includes`,
  `toLowerCase`, `Number()`, `String()`, `Array.prototype.sort` with a
  comparator, and Prisma/SQLite predicate evaluation) are modelled by
  explicit executable functions defined below, each marked as such.
-/

namespace RealEstate

/-- A TS number as it occurs in decoded filter criteria: an integer value or
`NaN` (the result of `Number()` on a non-numeric string). -/
inductive JsNumber where
  | nan : JsNumber
  | num (v : Int) : JsNumber
deriving DecidableEq

/-- The `Property` entity (`types/property.ts`).  `propertyType`,
`operationType` are strings drawn from the closed enum sets below;
`createdAt`/`updatedAt` are the instants denoted by the stored ISO strings.
`amenities`/`images` are irrelevant to every claim and omitted from the
embedding (no filter reads them). -/
structure Property where
  id : String
  title : String
  description : String
  propertyType : String
  operationType : String
  price : Int
  address : String
  city : String
  bedrooms : Int
  bathrooms : Int
  area : Int
  createdAt : Int
  updatedAt : Int
deriving DecidableEq

/-- The closed enum set `PROPERTY_TYPES` (`types/property.ts`). -/
def PROPERTY_TYPES : List String := ["casa", "apartamento", "terreno", "local", "oficina"]

/-- The closed enum set `OPERATION_TYPES` (`types/property.ts`). -/
def OPERATION_TYPES : List String := ["venta", "alquiler"]

/-- `PropertyFilters` (`types/property.ts`): every field optional.
Enum-valued fields are embedded as `String` so that the behaviour of the
code on out-of-enum values can be stated; numeric fields are `JsNumber`
because the decode step can produce `NaN`. -/
structure PropertyFilters where
  search : Option String := none
  propertyType : Option String := none
  operationType : Option String := none
  minPrice : Option JsNumber := none
  maxPrice : Option JsNumber := none
  minBedrooms : Option JsNumber := none
  city : Option String := none
deriving DecidableEq

/-- The flat string parameter bag: one optional string per query parameter,
as read from `req.query` / written into `URLSearchParams`. -/
structure QueryParams where
  search : Option String := none
  propertyType : Option String := none
  operationType : Option String := none
  minPrice : Option String := none
  maxPrice : Option String := none
  minBedrooms : Option String := none
  city : Option String := none
deriving DecidableEq

/-! ## Modelled JS primitives -/

/-- JS truthiness of an optional string (`undefined` and `""` are falsy). -/
def strTruthy : Option String → Bool
  | some s => !(s == "")
  | none => false

/-- ASCII lower-casing of a character — model of the effect of
`String.prototype.toLowerCase` on one code unit. -/
def lowerChar (c : Char) : Char :=
  if 65 ≤ c.toNat && c.toNat ≤ 90 then Char.ofNat (c.toNat + 32) else c

/-- Model of `String.prototype.toLowerCase` (ASCII range). -/
def lowerStr (s : String) : String :=
  String.mk (s.data.map lowerChar)

/-- `needle` is a prefix of `hay` (character-wise). -/
def isPrefixB : List Char → List Char → Bool
  | [], _ => true
  | _ :: _, [] => false
  | c :: cs, d :: ds => c == d && isPrefixB cs ds

/-- `needle` occurs contiguously inside `hay`. -/
def hasInfixB (needle : List Char) : List Char → Bool
  | [] => isPrefixB needle []
  | c :: rest => isPrefixB needle (c :: rest) || hasInfixB needle rest

/-- Model of `hay.includes(needle)` (JS substring containment). -/
def jsIncludes (hay needle : String) : Bool :=
  hasInfixB needle.data hay.data

/-- JS `x > 0` where `x` may be `NaN` (comparisons with `NaN` are false). -/
def jsGtZero : JsNumber → Bool
  | .nan => false
  | .num v => 0 < v

/-- JS `a >= x` for an `Int` left operand (false when `x` is `NaN`; this is
also how a `gte: NaN` bound behaves at the storage layer, where `NaN` binds
as `NULL` and the comparison never holds). -/
def jsGeNum (a : Int) : JsNumber → Bool
  | .nan => false
  | .num v => v ≤ a

/-- JS `a <= x` for an `Int` left operand (false when `x` is `NaN`). -/
def jsLeNum (a : Int) : JsNumber → Bool
  | .nan => false
  | .num v => a ≤ v

/-! ## Sorting (newest first)

`properties.sort((a, b) => new Date(b.createdAt).getTime() - new
Date(a.createdAt).getTime())` and Prisma's `orderBy: { createdAt: 'desc' }`
both order by creation instant, descending.  The comparator is modelled by
the relation `createdDesc` and the sort by a stable sort with respect to
it. -/

/-- `a` precedes `b` in creation-descending order. -/
def createdDesc (a b : Property) : Prop := b.createdAt ≤ a.createdAt

instance : DecidableRel createdDesc := fun a b => Int.decLe b.createdAt a.createdAt

instance : IsTotal Property createdDesc :=
  ⟨fun a b => Int.le_total b.createdAt a.createdAt⟩

instance : IsTrans Property createdDesc :=
  ⟨fun _ _ _ hab hbc => le_trans hbc hab⟩

/-- Model of the newest-first sort applied by both variants. -/
def sortByCreatedDesc (l : List Property) : List Property :=
  l.insertionSort createdDesc

/-! ## Local Predicate Filter (`storage.ts` lines 151–198)

Each `if (filters.x) { properties = properties.filter(...) }` pass is one
step function; `filterPropertiesList` is their sequential composition
followed by the final sort, exactly mirroring the source. -/

/-- Search pass (`storage.ts` 155–164): case-insensitive substring over
title, description, address and city. -/
def searchStep (filters : PropertyFilters) (properties : List Property) : List Property :=
  match filters.search with
  | some s =>
    if s == "" then properties else
      let searchLower := lowerStr s
      properties.filter fun p =>
        jsIncludes (lowerStr p.title) searchLower ||
        jsIncludes (lowerStr p.description) searchLower ||
        jsIncludes (lowerStr p.address) searchLower ||
        jsIncludes (lowerStr p.city) searchLower
  | none => properties

/-- Property-type pass (`storage.ts` 167–169): exact equality. -/
def typeStep (filters : PropertyFilters) (properties : List Property) : List Property :=
  match filters.propertyType with
  | some t => if t == "" then properties else properties.filter fun p => p.propertyType == t
  | none => properties

/-- Operation-type pass (`storage.ts` 172–174): exact equality. -/
def operationStep (filters : PropertyFilters) (properties : List Property) : List Property :=
  match filters.operationType with
  | some t => if t == "" then properties else properties.filter fun p => p.operationType == t
  | none => properties

/-- Min-price pass (`storage.ts` 177–179): applied only when the bound is
defined and `> 0`; inclusive `>=`. -/
def minPriceStep (filters : PropertyFilters) (properties : List Property) : List Property :=
  match filters.minPrice with
  | some v => if jsGtZero v then properties.filter (fun p => jsGeNum p.price v) else properties
  | none => properties

/-- Max-price pass (`storage.ts` 182–184): applied only when the bound is
defined and `> 0`; inclusive `<=`. -/
def maxPriceStep (filters : PropertyFilters) (properties : List Property) : List Property :=
  match filters.maxPrice with
  | some v => if jsGtZero v then properties.filter (fun p => jsLeNum p.price v) else properties
  | none => properties

/-- Min-bedrooms pass (`storage.ts` 187–189). -/
def minBedroomsStep (filters : PropertyFilters) (properties : List Property) : List Property :=
  match filters.minBedrooms with
  | some v => if jsGtZero v then properties.filter (fun p => jsGeNum p.bedrooms v) else properties
  | none => properties

/-- City pass (`storage.ts` 192–194): case-insensitive substring on city. -/
def cityStep (filters : PropertyFilters) (properties : List Property) : List Property :=
  match filters.city with
  | some c =>
    if c == "" then properties
    else properties.filter fun p => jsIncludes (lowerStr p.city) (lowerStr c)
  | none => properties

/-- `filterProperties` (`storage.ts` 151–198) on an explicit collection:
the seven optional passes applied in source order, then the newest-first
sort. -/
def filterPropertiesList (filters : PropertyFilters) (props : List Property) : List Property :=
  sortByCreatedDesc
    (cityStep filters
      (minBedroomsStep filters
        (maxPriceStep filters
          (minPriceStep filters
            (operationStep filters
              (typeStep filters
                (searchStep filters props)))))))

/-! ### Per-pass predicates

`xPass filters p` holds exactly when listing `p` survives the corresponding
pass (vacuously when the pass is skipped). -/

def searchPass (filters : PropertyFilters) (p : Property) : Bool :=
  match filters.search with
  | some s =>
    if s == "" then true else
      let searchLower := lowerStr s
      jsIncludes (lowerStr p.title) searchLower ||
      jsIncludes (lowerStr p.description) searchLower ||
      jsIncludes (lowerStr p.address) searchLower ||
      jsIncludes (lowerStr p.city) searchLower
  | none => true

def typePass (filters : PropertyFilters) (p : Property) : Bool :=
  match filters.propertyType with
  | some t => if t == "" then true else p.propertyType == t
  | none => true

def operationPass (filters : PropertyFilters) (p : Property) : Bool :=
  match filters.operationType with
  | some t => if t == "" then true else p.operationType == t
  | none => true

def minPricePass (filters : PropertyFilters) (p : Property) : Bool :=
  match filters.minPrice with
  | some v => if jsGtZero v then jsGeNum p.price v else true
  | none => true

def maxPricePass (filters : PropertyFilters) (p : Property) : Bool :=
  match filters.maxPrice with
  | some v => if jsGtZero v then jsLeNum p.price v else true
  | none => true

def minBedroomsPass (filters : PropertyFilters) (p : Property) : Bool :=
  match filters.minBedrooms with
  | some v => if jsGtZero v then jsGeNum p.bedrooms v else true
  | none => true

def cityPass (filters : PropertyFilters) (p : Property) : Bool :=
  match filters.city with
  | some c => if c == "" then true else jsIncludes (lowerStr p.city) (lowerStr c)
  | none => true

/-- A listing survives every populated pass of the local filter. -/
def localPasses (filters : PropertyFilters) (p : Property) : Bool :=
  searchPass filters p && typePass filters p && operationPass filters p &&
  minPricePass filters p && maxPricePass filters p && minBedroomsPass filters p &&
  cityPass filters p

/-! ## Remote Query Builder (`propertyRepository.ts`)

`buildWhereClause` (lines 207–249) produces a Prisma `where` record: a
conjunction of per-field sub-predicates, the search field becoming an `OR`
over four text columns.  Each source statement `if (cond) where.x = v`
assigns a distinct field, so the record is written field-wise.
`whereMatches` is the evaluation of such a record against one row, with
SQLite semantics: string equality is exact, `contains` is `LIKE`-style
(ASCII case-insensitive) containment, `gte`/`lte` are inclusive and never
hold against `NaN`. -/

/-- The `price: { gte?, lte? }` sub-record. -/
structure PriceCond where
  gte : Option JsNumber := none
  lte : Option JsNumber := none
deriving DecidableEq

/-- The Prisma `where` record built by `buildWhereClause`. -/
structure WhereClause where
  propertyType : Option String := none
  operationType : Option String := none
  price : Option PriceCond := none
  bedrooms : Option JsNumber := none
  city : Option String := none
  searchOr : Option String := none
deriving DecidableEq

/-- `buildWhereClause` (`propertyRepository.ts` 207–249).  String fields are
guarded by JS truthiness, numeric fields by `!== undefined`. -/
def buildWhereClause : Option PropertyFilters → WhereClause
  | none => {}
  | some filters =>
    { propertyType := if strTruthy filters.propertyType then filters.propertyType else none
      operationType := if strTruthy filters.operationType then filters.operationType else none
      price :=
        if filters.minPrice.isSome || filters.maxPrice.isSome then
          some { gte := filters.minPrice, lte := filters.maxPrice }
        else none
      bedrooms := filters.minBedrooms
      city := if strTruthy filters.city then filters.city else none
      searchOr := if strTruthy filters.search then filters.search else none }

/-- SQLite `LIKE`-style containment used for Prisma `contains` on SQLite
(ASCII case-insensitive). -/
def likeContains (column needle : String) : Bool :=
  jsIncludes (lowerStr column) (lowerStr needle)

/-- Evaluation of the `price` sub-record against a row value. -/
def priceCondHolds (c : PriceCond) (price : Int) : Bool :=
  (match c.gte with
   | some v => jsGeNum price v
   | none => true) &&
  (match c.lte with
   | some v => jsLeNum price v
   | none => true)

/-- Evaluation of the `propertyType` equality sub-predicate (vacuous when
absent). -/
def wTypeEval (w : WhereClause) (p : Property) : Bool :=
  match w.propertyType with
  | some t => p.propertyType == t
  | none => true

/-- Evaluation of the `operationType` equality sub-predicate. -/
def wOpEval (w : WhereClause) (p : Property) : Bool :=
  match w.operationType with
  | some t => p.operationType == t
  | none => true

/-- Evaluation of the `price` range sub-predicate. -/
def wPriceEval (w : WhereClause) (p : Property) : Bool :=
  match w.price with
  | some c => priceCondHolds c p.price
  | none => true

/-- Evaluation of the `bedrooms: { gte }` sub-predicate. -/
def wBedEval (w : WhereClause) (p : Property) : Bool :=
  match w.bedrooms with
  | some v => jsGeNum p.bedrooms v
  | none => true

/-- Evaluation of the `city: { contains }` sub-predicate. -/
def wCityEval (w : WhereClause) (p : Property) : Bool :=
  match w.city with
  | some s => likeContains p.city s
  | none => true

/-- Evaluation of the search `OR` list: any of the four text columns
contains the search string. -/
def wSearchEval (w : WhereClause) (p : Property) : Bool :=
  match w.searchOr with
  | some s =>
    likeContains p.title s || likeContains p.description s ||
    likeContains p.address s || likeContains p.city s
  | none => true

/-- Evaluation of a `where` record against one row (Prisma/SQLite
semantics; all populated sub-predicates composed by AND, the search field
an OR over title, description, address and city). -/
def whereMatches (w : WhereClause) (p : Property) : Bool :=
  wTypeEval w p && wOpEval w p && wPriceEval w p && wBedEval w p &&
  wCityEval w p && wSearchEval w p

/-- `propertyRepository.findAll` (`propertyRepository.ts` 124–133) over an
explicit table of rows: rows matching the built `where` record, ordered by
creation instant descending. -/
def findAll (filters : Option PropertyFilters) (db : List Property) : List Property :=
  sortByCreatedDesc (db.filter (whereMatches (buildWhereClause filters)))

/-! ## Query Param Codec

### Integer printing and parsing (modelled JS primitives)

`String(n)` for an integer JS number prints the decimal digits, with a
leading `-` for negative values, and `String(NaN) = "NaN"`;
`Number(s)` parses a decimal integer string (optionally signed) and yields
`NaN` on any non-numeric string.  Both are external JS primitives; they are
modelled by the executable pair below, exact on the integer strings the
codec exchanges. -/

/-- The decimal digit character for `d < 10`. -/
def digitChar (d : Nat) : Char := Char.ofNat (48 + d)

/-- Fold a run of decimal digit characters onto an accumulator; `none` as
soon as a non-digit is met. -/
def digitsToNat (acc : Nat) : List Char → Option Nat
  | [] => some acc
  | c :: cs => if c.isDigit then digitsToNat (acc * 10 + (c.toNat - 48)) cs else none

/-- Decimal digits of `n`, most significant first. -/
def natToChars (n : Nat) : List Char :=
  if _h : n < 10 then [digitChar n]
  else natToChars (n / 10) ++ [digitChar (n % 10)]
decreasing_by exact Nat.div_lt_self (by omega) (by omega)

/-- Model of JS `String()` on the numbers the codec emits. -/
def jsNumberToString : JsNumber → String
  | .nan => "NaN"
  | .num v => if v < 0 then String.mk ('-' :: natToChars v.natAbs) else String.mk (natToChars v.natAbs)

/-- Model of JS `Number()` on the strings the decode step feeds it:
an (optionally signed) decimal integer literal parses to its value, any
other non-empty string to `NaN`.  (`Number("") = 0` is unreachable here:
the decode step guards with truthiness first.) -/
def parseJsNumber (s : String) : JsNumber :=
  match s.data with
  | [] => .num 0
  | c :: cs =>
    if c == '-' then
      if cs.isEmpty then .nan
      else
        match digitsToNat 0 cs with
        | some n => .num (-(n : Int))
        | none => .nan
    else
      match digitsToNat 0 (c :: cs) with
      | some n => .num (n : Int)
      | none => .nan

/-- Decode step of the Remote Query Builder
(`propertyController.ts` `getAllProperties`, lines 39–47): string fields
pass through unvalidated (a bare type cast in the source); numeric fields
go through `truthy ? Number(x) : undefined`. -/
def decodeFilters (q : QueryParams) : PropertyFilters :=
  { search := q.search
    propertyType := q.propertyType
    operationType := q.operationType
    minPrice :=
      match q.minPrice with
      | some s => if s == "" then none else some (parseJsNumber s)
      | none => none
    maxPrice :=
      match q.maxPrice with
      | some s => if s == "" then none else some (parseJsNumber s)
      | none => none
    minBedrooms :=
      match q.minBedrooms with
      | some s => if s == "" then none else some (parseJsNumber s)
      | none => none
    city := q.city }

/-- Encode step (`api.ts` `getAllProperties`, lines 54–62): string fields
are appended when truthy, numeric fields whenever defined (via
`String(x)`). -/
def encodeFilters (filters : PropertyFilters) : QueryParams :=
  { search := if strTruthy filters.search then filters.search else none
    propertyType := if strTruthy filters.propertyType then filters.propertyType else none
    operationType := if strTruthy filters.operationType then filters.operationType else none
    minPrice := filters.minPrice.map jsNumberToString
    maxPrice := filters.maxPrice.map jsNumberToString
    minBedrooms := filters.minBedrooms.map jsNumberToString
    city := if strTruthy filters.city then filters.city else none }

/-- The full remote read pipeline `GET /api/properties`: decode the
parameter bag, build the `where` record, query and sort. -/
def getAllPropertiesRemote (q : QueryParams) (db : List Property) : List Property :=
  findAll (some (decodeFilters q)) db

/-! ## Local storage layer (`storage.ts`)

State: `none` when the `localStorage` key is absent, `some l` when it holds
the serialised collection `l` (the JSON codec is the identity of the
embedding; the corrupt-data branch of `getAllProperties` collapses with the
absent-key branch to `[]`). -/

/-- The `localStorage` slot under `real_estate_properties`. -/
def StorageState : Type := Option (List Property)

/-- `getAllProperties` (`storage.ts` 34–51): the stored collection, `[]`
when absent. -/
def getAllPropertiesSt : StorageState → List Property
  | none => []
  | some l => l

/-- `saveProperties` (`storage.ts` 209–217): overwrite the slot. -/
def savePropertiesSt (properties : List Property) (_ : StorageState) : StorageState :=
  some properties

/-- `CreatePropertyInput` (`types/property.ts`): the writable fields. -/
structure CreateInput where
  title : String
  description : String
  propertyType : String
  operationType : String
  price : Int
  address : String
  city : String
  bedrooms : Int
  bathrooms : Int
  area : Int
deriving DecidableEq

/-- A `Partial<CreatePropertyInput>` update: each writable field optional. -/
structure UpdateInput where
  title : Option String := none
  description : Option String := none
  propertyType : Option String := none
  operationType : Option String := none
  price : Option Int := none
  address : Option String := none
  city : Option String := none
  bedrooms : Option Int := none
  bathrooms : Option Int := none
  area : Option Int := none
deriving DecidableEq

/-- `{ ...existingProperty, ...input, updatedAt: now }`:
present fields of the update override, `id` and `createdAt` are not part of
the input and persist, `updatedAt` is refreshed. -/
def applyUpdate (p : Property) (i : UpdateInput) (now : Int) : Property :=
  { id := p.id
    title := i.title.getD p.title
    description := i.description.getD p.description
    propertyType := i.propertyType.getD p.propertyType
    operationType := i.operationType.getD p.operationType
    price := i.price.getD p.price
    address := i.address.getD p.address
    city := i.city.getD p.city
    bedrooms := i.bedrooms.getD p.bedrooms
    bathrooms := i.bathrooms.getD p.bathrooms
    area := i.area.getD p.area
    createdAt := p.createdAt
    updatedAt := now }

/-- `filterProperties` (`storage.ts` 151–198) as a state transaction: one
read of the collection, pure filtering, no write. -/
def filterPropertiesSt (filters : PropertyFilters) (st : StorageState) :
    List Property × StorageState :=
  (filterPropertiesList filters (getAllPropertiesSt st), st)

/-- `createProperty` (`storage.ts` 75–89).  `generateId()` and the instant
read by `new Date()` are the parameters `newId` and `now`; both
`createdAt` and `updatedAt` are built within the one call and carry the
same instant. -/
def createPropertySt (input : CreateInput) (newId : String) (now : Int) (st : StorageState) :
    Property × StorageState :=
  let properties := getAllPropertiesSt st
  let newProperty : Property :=
    { id := newId
      title := input.title
      description := input.description
      propertyType := input.propertyType
      operationType := input.operationType
      price := input.price
      address := input.address
      city := input.city
      bedrooms := input.bedrooms
      bathrooms := input.bathrooms
      area := input.area
      createdAt := now
      updatedAt := now }
  (newProperty, savePropertiesSt (properties ++ [newProperty]) st)

/-- `updateProperty` (`storage.ts` 98–117): find by id (`findIndex`), merge,
write back at the same index. -/
def updatePropertySt (id : String) (input : UpdateInput) (now : Int) (st : StorageState) :
    Option Property × StorageState :=
  let properties := getAllPropertiesSt st
  match properties.findIdx? (fun p => p.id == id) with
  | none => (none, st)
  | some index =>
    match properties[index]? with
    | none => (none, st)
    | some existingProperty =>
      let updatedProperty := applyUpdate existingProperty input now
      (some updatedProperty, savePropertiesSt (properties.set index updatedProperty) st)

/-- `deleteProperty` (`storage.ts` 125–135): drop every listing with the
id; report `false` and skip the write when nothing was dropped. -/
def deletePropertySt (id : String) (st : StorageState) : Bool × StorageState :=
  let properties := getAllPropertiesSt st
  let filtered := properties.filter fun p => !(p.id == id)
  if filtered.length == properties.length then (false, st)
  else (true, savePropertiesSt filtered st)

/-! ## Sequences of write operations

For the timestamp invariant, the three write operations are packaged as a
small operation language over the storage state; each time-reading
operation carries the instant at which it runs. -/

/-- One write operation against the local storage. -/
inductive StorageOp where
  | create (input : CreateInput) (newId : String) (now : Int) : StorageOp
  | update (id : String) (input : UpdateInput) (now : Int) : StorageOp
  | del (id : String) : StorageOp
deriving DecidableEq

/-- The state after one operation (returned values discarded). -/
def applyOp : StorageOp → StorageState → StorageState
  | .create input newId now, st => (createPropertySt input newId now st).2
  | .update id input now, st => (updatePropertySt id input now st).2
  | .del id, st => (deletePropertySt id st).2

/-- The state after a sequence of operations. -/
def applyOps : List StorageOp → StorageState → StorageState
  | [], st => st
  | op :: rest, st => applyOps rest (applyOp op st)

/-- The instant at which an operation reads the clock (`del` reads none). -/
def opTime : StorageOp → Option Int
  | .create _ _ now => some now
  | .update _ _ now => some now
  | .del _ => none

/-- The clock readings along a sequence never go below the running bound:
real time is monotone across successive calls. -/
def OpsChrono : Int → List StorageOp → Prop
  | _, [] => True
  | t, op :: rest =>
    match opTime op with
    | some u => t ≤ u ∧ OpsChrono u rest
    | none => OpsChrono t rest

/-- Every stored listing has coherent timestamps, all bounded by `t`. -/
def InvBelow (t : Int) (st : StorageState) : Prop :=
  ∀ p ∈ getAllPropertiesSt st, p.createdAt ≤ p.updatedAt ∧ p.updatedAt ≤ t

/-- The timestamp invariant of the data model: `updatedAt ≥ createdAt` for
every stored listing. -/
def TimestampInv (st : StorageState) : Prop :=
  ∀ p ∈ getAllPropertiesSt st, p.createdAt ≤ p.updatedAt

/-! ## Concrete sample data (used by witnesses and counterexamples) -/

/-- A well-formed sample listing. -/
def sampleCasa : Property :=
  { id := "p1", title := "Casa junto al mar", description := "Bonita casa con vistas"
    propertyType := "casa", operationType := "venta", price := 250000
    address := "Paseo Maritimo 1", city := "Valencia", bedrooms := 3, bathrooms := 2
    area := 120, createdAt := 100, updatedAt := 100 }

/-- A cheaper sample listing. -/
def sampleBarato : Property :=
  { id := "p2", title := "Piso economico", description := "Para reformar"
    propertyType := "apartamento", operationType := "venta", price := 100000
    address := "Calle Baja 2", city := "Sevilla", bedrooms := 2, bathrooms := 1
    area := 70, createdAt := 50, updatedAt := 50 }

/-- A listing whose city is the only text field containing "valencia". -/
def sampleCityOnly : Property :=
  { id := "p3", title := "Piso centrico", description := "Muy luminoso"
    propertyType := "apartamento", operationType := "alquiler", price := 1200
    address := "Calle Mayor 1", city := "Valencia", bedrooms := 2, bathrooms := 1
    area := 80, createdAt := 70, updatedAt := 70 }

/-- A sample creation input. -/
def sampleInput : CreateInput :=
  { title := "Atico con terraza", description := "Vistas a la ciudad"
    propertyType := "apartamento", operationType := "venta", price := 300000
    address := "Avenida Alta 3", city := "Madrid", bedrooms := 2, bathrooms := 2
    area := 95 }

/-- The filter criteria carrying only `minPrice = maxPrice = P`. -/
def priceOnly (P : Int) : PropertyFilters :=
  { minPrice := some (.num P), maxPrice := some (.num P) }

/-- A fully-populated, enum-valid sample criteria. -/
def sampleCriteria : PropertyFilters :=
  { search := some "mar", propertyType := some "casa", operationType := some "venta"
    minPrice := some (.num 150000), maxPrice := some (.num 300000)
    minBedrooms := some (.num 2), city := some "Valencia" }

/-! ## Basic lemmas about the embedding -/

theorem perm_sortByCreatedDesc (l : List Property) : (sortByCreatedDesc l).Perm l :=
  List.perm_insertionSort createdDesc l

theorem mem_sortByCreatedDesc {p : Property} {l : List Property} :
    p ∈ sortByCreatedDesc l ↔ p ∈ l :=
  (perm_sortByCreatedDesc l).mem_iff

theorem sorted_sortByCreatedDesc (l : List Property) :
    (sortByCreatedDesc l).Sorted createdDesc :=
  List.sorted_insertionSort createdDesc l

theorem mem_searchStep {filters : PropertyFilters} {p : Property} {l : List Property} :
    p ∈ searchStep filters l ↔ p ∈ l ∧ searchPass filters p = true := by
  unfold searchStep searchPass
  cases filters.search with
  | none => simp
  | some s =>
    by_cases hs : s == "" <;> simp [hs, List.mem_filter]

theorem mem_typeStep {filters : PropertyFilters} {p : Property} {l : List Property} :
    p ∈ typeStep filters l ↔ p ∈ l ∧ typePass filters p = true := by
  unfold typeStep typePass
  cases filters.propertyType with
  | none => simp
  | some t =>
    by_cases ht : t == "" <;> simp [ht, List.mem_filter]

theorem mem_operationStep {filters : PropertyFilters} {p : Property} {l : List Property} :
    p ∈ operationStep filters l ↔ p ∈ l ∧ operationPass filters p = true := by
  unfold operationStep operationPass
  cases filters.operationType with
  | none => simp
  | some t =>
    by_cases ht : t == "" <;> simp [ht, List.mem_filter]

theorem mem_minPriceStep {filters : PropertyFilters} {p : Property} {l : List Property} :
    p ∈ minPriceStep filters l ↔ p ∈ l ∧ minPricePass filters p = true := by
  unfold minPriceStep minPricePass
  cases filters.minPrice with
  | none => simp
  | some v =>
    by_cases hv : jsGtZero v <;> simp [hv, List.mem_filter]

theorem mem_maxPriceStep {filters : PropertyFilters} {p : Property} {l : List Property} :
    p ∈ maxPriceStep filters l ↔ p ∈ l ∧ maxPricePass filters p = true := by
  unfold maxPriceStep maxPricePass
  cases filters.maxPrice with
  | none => simp
  | some v =>
    by_cases hv : jsGtZero v <;> simp [hv, List.mem_filter]

theorem mem_minBedroomsStep {filters : PropertyFilters} {p : Property} {l : List Property} :
    p ∈ minBedroomsStep filters l ↔ p ∈ l ∧ minBedroomsPass filters p = true := by
  unfold minBedroomsStep minBedroomsPass
  cases filters.minBedrooms with
  | none => simp
  | some v =>
    by_cases hv : jsGtZero v <;> simp [hv, List.mem_filter]

theorem mem_cityStep {filters : PropertyFilters} {p : Property} {l : List Property} :
    p ∈ cityStep filters l ↔ p ∈ l ∧ cityPass filters p = true := by
  unfold cityStep cityPass
  cases filters.city with
  | none => simp
  | some c =>
    by_cases hc : c == "" <;> simp [hc, List.mem_filter]

/-- Membership characterisation of the Local Predicate Filter: a listing is
in the output exactly when it is in the input and survives every populated
pass. -/
theorem mem_filterPropertiesList {filters : PropertyFilters} {p : Property}
    {props : List Property} :
    p ∈ filterPropertiesList filters props ↔ p ∈ props ∧ localPasses filters p = true := by
  unfold filterPropertiesList localPasses
  rw [mem_sortByCreatedDesc, mem_cityStep, mem_minBedroomsStep, mem_maxPriceStep,
    mem_minPriceStep, mem_operationStep, mem_typeStep, mem_searchStep]
  simp only [Bool.and_eq_true, and_assoc]

/-- Membership characterisation of `findAll`: a row is in the output
exactly when it is in the table and matches the built `where` record. -/
theorem mem_findAll {filters : Option PropertyFilters} {p : Property}
    {db : List Property} :
    p ∈ findAll filters db ↔ p ∈ db ∧ whereMatches (buildWhereClause filters) p = true := by
  unfold findAll
  rw [mem_sortByCreatedDesc, List.mem_filter]

/-! ### Correctness of the integer print/parse pair -/

theorem isPrefixB_nil (l : List Char) : isPrefixB [] l = true := by
  cases l <;> rfl

theorem hasInfixB_nil (l : List Char) : hasInfixB [] l = true := by
  induction l with
  | nil => rfl
  | cons c rest ih => simp [hasInfixB, isPrefixB_nil, ih]

/-- The empty search string is contained in every string. -/
theorem jsIncludes_empty (h : String) : jsIncludes h "" = true := by
  unfold jsIncludes
  exact hasInfixB_nil _

theorem digitChar_isDigit {d : Nat} (h : d < 10) : (digitChar d).isDigit = true := by
  interval_cases d <;> decide

theorem digitChar_toNat {d : Nat} (h : d < 10) : (digitChar d).toNat - 48 = d := by
  interval_cases d <;> decide

theorem digitChar_ne_dash {d : Nat} (h : d < 10) : digitChar d ≠ '-' := by
  interval_cases d <;> decide

theorem digitsToNat_append (cs ds : List Char) (acc : Nat) :
    digitsToNat acc (cs ++ ds) =
      match digitsToNat acc cs with
      | some m => digitsToNat m ds
      | none => none := by
  induction cs generalizing acc with
  | nil => rfl
  | cons c cs ih =>
    by_cases hc : c.isDigit <;> simp [digitsToNat, hc, ih]

theorem digitsToNat_natToChars (n : Nat) :
    ∀ acc, digitsToNat acc (natToChars n) = some (acc * 10 ^ (natToChars n).length + n) := by
  induction n using Nat.strong_induction_on with
  | _ n ih =>
    intro acc
    rw [natToChars]
    by_cases h : n < 10
    · simp [h, digitsToNat, digitChar_isDigit h, digitChar_toNat h]
    · simp only [h, dite_false]
      rw [digitsToNat_append, ih (n / 10) (Nat.div_lt_self (by omega) (by omega)) acc]
      have hd : (n % 10) < 10 := Nat.mod_lt _ (by omega)
      simp only [digitsToNat, digitChar_isDigit hd, if_true, digitChar_toNat hd,
        List.length_append, List.length_cons, List.length_nil, Option.some.injEq]
      rw [pow_succ]
      generalize (10 : Nat) ^ (natToChars (n / 10)).length = k
      calc (acc * k + n / 10) * 10 + n % 10
          = acc * (k * 10) + (n / 10 * 10 + n % 10) := by ring
        _ = acc * (k * 10) + n := by congr 1; omega

theorem natToChars_ne_nil (n : Nat) : natToChars n ≠ [] := by
  rw [natToChars]
  by_cases h : n < 10 <;> simp [h]

theorem natToChars_head_digit (n : Nat) :
    ∃ c cs, natToChars n = c :: cs ∧ c.isDigit = true := by
  induction n using Nat.strong_induction_on with
  | _ n ih =>
    rw [natToChars]
    by_cases h : n < 10
    · exact ⟨digitChar n, [], by simp [h], digitChar_isDigit h⟩
    · simp only [h, dite_false]
      obtain ⟨c, cs, heq, hdig⟩ := ih (n / 10) (Nat.div_lt_self (by omega) (by omega))
      exact ⟨c, cs ++ [digitChar (n % 10)], by rw [heq]; rfl, hdig⟩

theorem stringData_mk (l : List Char) : (String.mk l).data = l := rfl

theorem parseJsNumber_mk (c : Char) (cs : List Char) :
    parseJsNumber (String.mk (c :: cs)) =
      if c == '-' then
        if cs.isEmpty then .nan
        else
          match digitsToNat 0 cs with
          | some n => .num (-(n : Int))
          | none => .nan
      else
        match digitsToNat 0 (c :: cs) with
        | some n => .num (n : Int)
        | none => .nan := rfl

theorem digitsToNat_natToChars_zero (n : Nat) : digitsToNat 0 (natToChars n) = some n := by
  have h := digitsToNat_natToChars n 0
  simpa using h

/-- `Number(String(x)) = x` on the values the codec exchanges. -/
theorem parse_print (x : JsNumber) : parseJsNumber (jsNumberToString x) = x := by
  cases x with
  | nan => rfl
  | num v =>
    by_cases hv : v < 0
    · have hstr : jsNumberToString (.num v) = String.mk ('-' :: natToChars v.natAbs) := by
        simp [jsNumberToString, hv]
      rw [hstr, parseJsNumber_mk]
      have hne : (natToChars v.natAbs).isEmpty = false := by
        rcases h : natToChars v.natAbs with _ | ⟨c, cs⟩
        · exact absurd h (natToChars_ne_nil _)
        · rfl
      simp only [hne, digitsToNat_natToChars_zero, beq_self_eq_true, if_true,
        Bool.false_eq_true, if_false, JsNumber.num.injEq]
      omega
    · have hstr : jsNumberToString (.num v) = String.mk (natToChars v.natAbs) := by
        simp [jsNumberToString, hv]
      obtain ⟨c, cs, hcons, hdig⟩ := natToChars_head_digit v.natAbs
      have hcd : c ≠ '-' := by
        intro h
        rw [h] at hdig
        exact absurd hdig (by decide)
      rw [hstr, hcons, parseJsNumber_mk, if_neg (by simpa using hcd), ← hcons,
        digitsToNat_natToChars_zero]
      show JsNumber.num ((v.natAbs : Int)) = JsNumber.num v
      congr 1
      omega

/-! ### Preservation of the timestamp invariant -/

theorem invBelow_mono {t u : Int} (h : t ≤ u) {st : StorageState} (hinv : InvBelow t st) :
    InvBelow u st :=
  fun p hp => ⟨(hinv p hp).1, le_trans (hinv p hp).2 h⟩

theorem invBelow_create {t u : Int} (htu : t ≤ u) {st : StorageState} (hinv : InvBelow t st)
    (input : CreateInput) (newId : String) :
    InvBelow u ((createPropertySt input newId u st).2) := by
  intro p hp
  simp only [createPropertySt, savePropertiesSt, getAllPropertiesSt, List.mem_append,
    List.mem_singleton] at hp
  rcases hp with h | h
  · exact ⟨(hinv p h).1, le_trans (hinv p h).2 htu⟩
  · subst h
    exact ⟨le_refl _, le_refl _⟩

theorem invBelow_update {t u : Int} (htu : t ≤ u) {st : StorageState} (hinv : InvBelow t st)
    (id : String) (input : UpdateInput) :
    InvBelow u ((updatePropertySt id input u st).2) := by
  unfold updatePropertySt
  dsimp only
  split
  · exact invBelow_mono htu hinv
  · split
    · exact invBelow_mono htu hinv
    · rename_i index hidx existing hget
      intro p hp
      simp only [savePropertiesSt, getAllPropertiesSt] at hp
      rcases List.mem_or_eq_of_mem_set hp with h | h
      · exact ⟨(hinv p h).1, le_trans (hinv p h).2 htu⟩
      · subst h
        have hmem : existing ∈ getAllPropertiesSt st := List.getElem?_mem hget
        refine ⟨?_, le_refl _⟩
        show existing.createdAt ≤ u
        exact le_trans (le_trans (hinv existing hmem).1 (hinv existing hmem).2) htu

theorem invBelow_del {t : Int} {st : StorageState} (hinv : InvBelow t st) (id : String) :
    InvBelow t ((deletePropertySt id st).2) := by
  unfold deletePropertySt
  dsimp only
  split
  · exact hinv
  · intro p hp
    simp only [savePropertiesSt, getAllPropertiesSt] at hp
    exact hinv p (List.mem_filter.mp hp).1

/-- Any chronologically ordered sequence of write operations started from a
state satisfying `InvBelow t` leaves every stored listing with
`updatedAt ≥ createdAt`. -/
theorem timestampInv_applyOps :
    ∀ (ops : List StorageOp) (t : Int) (st : StorageState),
      InvBelow t st → OpsChrono t ops → TimestampInv (applyOps ops st) := by
  intro ops
  induction ops with
  | nil =>
    intro t st hinv _
    exact fun p hp => (hinv p hp).1
  | cons op rest ih =>
    intro t st hinv hchrono
    cases op with
    | create input newId now =>
      have hc : t ≤ now ∧ OpsChrono now rest := hchrono
      exact ih now _ (invBelow_create hc.1 hinv input newId) hc.2
    | update id input now =>
      have hc : t ≤ now ∧ OpsChrono now rest := hchrono
      exact ih now _ (invBelow_update hc.1 hinv id input) hc.2
    | del id =>
      have hc : OpsChrono t rest := hchrono
      exact ih t _ (invBelow_del hinv id) hc

/-! ### Support lemmas for the claim theorems -/

theorem lowerStr_empty : lowerStr "" = "" := rfl

theorem mkString_ne_empty (c : Char) (cs : List Char) : String.mk (c :: cs) ≠ "" := by
  intro h
  have hd : (String.mk (c :: cs)).data = ("" : String).data := by rw [h]
  have he : ("" : String).data = [] := rfl
  rw [stringData_mk, he] at hd
  exact absurd hd (by simp)

theorem jsNumberToString_ne_empty (x : JsNumber) : (jsNumberToString x == "") = false := by
  rw [beq_eq_false_iff_ne]
  cases x with
  | nan => decide
  | num v =>
    by_cases hv : v < 0
    · simpa [jsNumberToString, hv] using mkString_ne_empty '-' (natToChars v.natAbs)
    · obtain ⟨c, cs, hcons, _⟩ := natToChars_head_digit v.natAbs
      simpa [jsNumberToString, hv, hcons] using mkString_ne_empty c cs

/-- Survival of the local filter with a populated search field, split into
the search disjunction and the remaining passes. -/
theorem localPasses_eq_search (filters : PropertyFilters) (s : String)
    (hs : filters.search = some s) (p : Property) :
    localPasses filters p = true ↔
      ((jsIncludes (lowerStr p.title) (lowerStr s) ||
        jsIncludes (lowerStr p.description) (lowerStr s) ||
        jsIncludes (lowerStr p.address) (lowerStr s) ||
        jsIncludes (lowerStr p.city) (lowerStr s)) = true ∧
       (typePass filters p && operationPass filters p && minPricePass filters p &&
        maxPricePass filters p && minBedroomsPass filters p && cityPass filters p) = true) := by
  unfold localPasses searchPass
  rw [hs]
  by_cases hempty : s == ""
  · have hse : s = "" := eq_of_beq hempty
    subst hse
    simp [lowerStr_empty, jsIncludes_empty, Bool.and_eq_true, and_assoc]
  · simp only [hempty, Bool.false_eq_true, if_false, Bool.and_eq_true, and_assoc]

/-- Survival of the local filter with a populated (non-empty) property-type
field, split into the equality test and the remaining passes. -/
theorem localPasses_eq_type (filters : PropertyFilters) (t : String)
    (ht : filters.propertyType = some t) (hne : (t == "") = false) (p : Property) :
    localPasses filters p = true ↔
      (p.propertyType = t ∧
       (searchPass filters p && operationPass filters p && minPricePass filters p &&
        maxPricePass filters p && minBedroomsPass filters p && cityPass filters p) = true) := by
  unfold localPasses typePass
  rw [ht]
  simp only [hne, Bool.false_eq_true, if_false, Bool.and_eq_true, and_assoc, beq_iff_eq]
  tauto

/-- The `where` record built from a filter with a populated (non-empty)
property-type field carries exactly that equality constraint. -/
theorem whereMatches_eq_type (filters : PropertyFilters) (t : String)
    (ht : filters.propertyType = some t) (hne : (t == "") = false) (p : Property) :
    whereMatches (buildWhereClause (some filters)) p = true ↔
      (p.propertyType = t ∧
       (wOpEval (buildWhereClause (some filters)) p &&
        wPriceEval (buildWhereClause (some filters)) p &&
        wBedEval (buildWhereClause (some filters)) p &&
        wCityEval (buildWhereClause (some filters)) p &&
        wSearchEval (buildWhereClause (some filters)) p) = true) := by
  have hbw : (buildWhereClause (some filters)).propertyType = some t := by
    simp [buildWhereClause, ht, strTruthy, hne]
  unfold whereMatches wTypeEval
  rw [hbw]
  simp only [Bool.and_eq_true, and_assoc, beq_iff_eq]

/-! ## Claim theorems -/

/-- C4: with every filter field unset, both the Local Predicate Filter and
the Remote Query Builder return the entire collection — a permutation of
the input, so nothing is omitted and nothing duplicated — ordered by
creation timestamp descending (newest first). -/
theorem c4_empty_criteria_full_collection (props db : List Property) :
    (filterPropertiesList {} props).Perm props ∧
    (filterPropertiesList {} props).Sorted (fun a b => b.createdAt ≤ a.createdAt) ∧
    (findAll (some {}) db).Perm db ∧
    (findAll (some {}) db).Sorted (fun a b => b.createdAt ≤ a.createdAt) := by
  have hdb : db.filter (whereMatches (buildWhereClause (some {}))) = db :=
    List.filter_eq_self.mpr fun a _ => rfl
  refine ⟨?_, ?_, ?_, ?_⟩
  · show (sortByCreatedDesc props).Perm props
    exact perm_sortByCreatedDesc props
  · exact sorted_sortByCreatedDesc _
  · show (sortByCreatedDesc (db.filter (whereMatches (buildWhereClause (some {}))))).Perm db
    rw [hdb]
    exact perm_sortByCreatedDesc db
  · exact sorted_sortByCreatedDesc _

/-- C7: the Local Predicate Filter never writes to storage: the state after
the call is the stored state before it, the collection read back afterwards
is element-for-element the one read before, and the returned sequence is a
fresh list computed from that read. -/
theorem c7_filter_is_readonly (filters : PropertyFilters) (st : StorageState) :
    (filterPropertiesSt filters st).2 = st ∧
    getAllPropertiesSt (filterPropertiesSt filters st).2 = getAllPropertiesSt st ∧
    (filterPropertiesSt filters st).1 =
      filterPropertiesList filters (getAllPropertiesSt st) :=
  ⟨rfl, rfl, rfl⟩

/-- C10: `deleteProperty id` reports `true` exactly when a listing with
that identifier is stored; on `true` the stored collection afterwards is
the previous one with exactly the listings carrying that identifier
removed (all others unchanged, in order); on `false` the storage state is
not modified at all. -/
theorem c10_delete_semantics (id : String) (st : StorageState) :
    ((deletePropertySt id st).1 = true ↔ ∃ p ∈ getAllPropertiesSt st, p.id = id) ∧
    ((deletePropertySt id st).1 = true →
      getAllPropertiesSt (deletePropertySt id st).2 =
        (getAllPropertiesSt st).filter fun p => !(p.id == id)) ∧
    ((deletePropertySt id st).1 = false → (deletePropertySt id st).2 = st) := by
  unfold deletePropertySt
  dsimp only
  split
  · rename_i hlen
    have hall := List.filter_length_eq_length.mp (eq_of_beq hlen)
    refine ⟨iff_of_false (by simp) ?_, fun h => absurd h (by simp), fun _ => rfl⟩
    rintro ⟨p, hp, hid⟩
    have := hall p hp
    simp [hid] at this
  · rename_i hlen
    refine ⟨iff_of_true rfl ?_, fun _ => rfl, fun h => absurd h (by simp)⟩
    by_contra hne
    push_neg at hne
    apply hlen
    have hfe : ((getAllPropertiesSt st).filter fun p => !(p.id == id)) =
        getAllPropertiesSt st := by
      refine List.filter_eq_self.mpr fun a ha => ?_
      simpa using hne a ha
    rw [hfe]
    simp

/-- C9: `createProperty` stamps `createdAt` and `updatedAt` with the one
creation instant; `updateProperty` keeps the identifier and `createdAt` of
the stored listing and refreshes `updatedAt` to the update instant; and
along any chronologically-ordered sequence of create/update/delete
operations every stored listing satisfies `updatedAt ≥ createdAt`. -/
theorem c9_timestamp_invariant :
    (∀ (input : CreateInput) (newId : String) (now : Int) (st : StorageState),
       (createPropertySt input newId now st).1.createdAt = now ∧
       (createPropertySt input newId now st).1.updatedAt = now) ∧
    (∀ (id : String) (input : UpdateInput) (now : Int) (st : StorageState) (r : Property),
       (updatePropertySt id input now st).1 = some r →
       ∃ p ∈ getAllPropertiesSt st,
         r.id = p.id ∧ r.createdAt = p.createdAt ∧ r.updatedAt = now) ∧
    (∀ (t : Int) (ops : List StorageOp) (st : StorageState),
       InvBelow t st → OpsChrono t ops → TimestampInv (applyOps ops st)) := by
  refine ⟨fun _ _ _ _ => ⟨rfl, rfl⟩, ?_,
    fun t ops st h1 h2 => timestampInv_applyOps ops t st h1 h2⟩
  intro id input now st r hr
  unfold updatePropertySt at hr
  dsimp only at hr
  split at hr
  · exact absurd hr (by simp)
  · split at hr
    · exact absurd hr (by simp)
    · rename_i index hidx existing hget
      rw [Option.some.injEq] at hr
      subst hr
      exact ⟨existing, List.getElem?_mem hget, rfl, rfl, rfl⟩

/-- C9 witness: the three conjuncts of `c9_timestamp_invariant`
instantiated at concrete data — a creation at instant 7, an update of the
stored sample listing at instant 150, and a chronological
create/update/delete run from the empty store. -/
theorem c9_timestamp_invariant_witness :
    ((createPropertySt sampleInput "p9" 7 none).1.createdAt = 7 ∧
     (createPropertySt sampleInput "p9" 7 none).1.updatedAt = 7) ∧
    (∃ p ∈ getAllPropertiesSt (some [sampleCasa]),
      (applyUpdate sampleCasa { price := some 260000 } 150).id = p.id ∧
      (applyUpdate sampleCasa { price := some 260000 } 150).createdAt = p.createdAt ∧
      (applyUpdate sampleCasa { price := some 260000 } 150).updatedAt = 150) ∧
    TimestampInv (applyOps
      [.create sampleInput "p9" 7, .update "p9" { price := some 111 } 9, .del "p9"] none) :=
  ⟨c9_timestamp_invariant.1 sampleInput "p9" 7 none,
   c9_timestamp_invariant.2.1 "p1" { price := some 260000 } 150 (some [sampleCasa])
     (applyUpdate sampleCasa { price := some 260000 } 150) (by decide),
   c9_timestamp_invariant.2.2 0
     [.create sampleInput "p9" 7, .update "p9" { price := some 111 } 9, .del "p9"] none
     (fun p hp => absurd hp (List.not_mem_nil p))
     ⟨by norm_num, by norm_num, trivial⟩⟩

/-- C10 witness: `c10_delete_semantics` instantiated at the stored sample
listing and its identifier. -/
theorem c10_delete_semantics_witness :
    ((deletePropertySt "p1" (some [sampleCasa])).1 = true ↔
      ∃ p ∈ getAllPropertiesSt (some [sampleCasa]), p.id = "p1") ∧
    ((deletePropertySt "p1" (some [sampleCasa])).1 = true →
      getAllPropertiesSt (deletePropertySt "p1" (some [sampleCasa])).2 =
        (getAllPropertiesSt (some [sampleCasa])).filter fun p => !(p.id == "p1")) ∧
    ((deletePropertySt "p1" (some [sampleCasa])).1 = false →
      (deletePropertySt "p1" (some [sampleCasa])).2 = some [sampleCasa]) :=
  c10_delete_semantics "p1" (some [sampleCasa])

/-- C1 (amended): with a populated search field, a listing is returned by
the Local Predicate Filter exactly when the search string occurs
case-insensitively in its title, description, address OR city — four text
fields, not three — while every other populated filter field still holds. -/
theorem c1_search_characterisation (filters : PropertyFilters) (s : String)
    (hs : filters.search = some s) (props : List Property) (p : Property) :
    p ∈ filterPropertiesList filters props ↔
      p ∈ props ∧
      (jsIncludes (lowerStr p.title) (lowerStr s) ||
       jsIncludes (lowerStr p.description) (lowerStr s) ||
       jsIncludes (lowerStr p.address) (lowerStr s) ||
       jsIncludes (lowerStr p.city) (lowerStr s)) = true ∧
      (typePass filters p && operationPass filters p && minPricePass filters p &&
       maxPricePass filters p && minBedroomsPass filters p && cityPass filters p) = true := by
  rw [mem_filterPropertiesList, localPasses_eq_search filters s hs p]

/-- C1 counterexample: searching "valencia" returns the listing whose city
alone contains the string, although the string occurs in none of title,
description and address — refuting the claimed three-field
characterisation. -/
theorem c1_counterexample :
    sampleCityOnly ∈ filterPropertiesList { search := some "valencia" } [sampleCityOnly] ∧
    jsIncludes (lowerStr sampleCityOnly.title) (lowerStr "valencia") = false ∧
    jsIncludes (lowerStr sampleCityOnly.description) (lowerStr "valencia") = false ∧
    jsIncludes (lowerStr sampleCityOnly.address) (lowerStr "valencia") = false := by
  decide

/-- C1 witness: the characterisation applied at search string "mar" over
the sample listing. -/
theorem c1_search_characterisation_witness :
    sampleCasa ∈ filterPropertiesList { search := some "mar" } [sampleCasa] :=
  (c1_search_characterisation { search := some "mar" } "mar" rfl [sampleCasa] sampleCasa).mpr
    ⟨by decide, by decide, by decide⟩

/-- C5: with a populated property-type field (a value of the closed enum
set), a listing is returned exactly when its type equals the filter's
exactly AND every other populated field holds, in both the local and the
remote variant — populated fields compose by logical AND. -/
theorem c5_enum_equality_conjunction (filters : PropertyFilters) (t : String)
    (ht : filters.propertyType = some t) (hv : t ∈ PROPERTY_TYPES)
    (props db : List Property) (p q : Property) :
    (p ∈ filterPropertiesList filters props ↔
      p ∈ props ∧ p.propertyType = t ∧
      (searchPass filters p && operationPass filters p && minPricePass filters p &&
       maxPricePass filters p && minBedroomsPass filters p && cityPass filters p) = true) ∧
    (q ∈ findAll (some filters) db ↔
      q ∈ db ∧ q.propertyType = t ∧
      (wOpEval (buildWhereClause (some filters)) q &&
       wPriceEval (buildWhereClause (some filters)) q &&
       wBedEval (buildWhereClause (some filters)) q &&
       wCityEval (buildWhereClause (some filters)) q &&
       wSearchEval (buildWhereClause (some filters)) q) = true) := by
  have hne : (t == "") = false := by
    rw [beq_eq_false_iff_ne]
    intro h
    subst h
    simp [PROPERTY_TYPES] at hv
  constructor
  · rw [mem_filterPropertiesList, localPasses_eq_type filters t ht hne p]
  · rw [mem_findAll, whereMatches_eq_type filters t ht hne q]

/-- C5 witness: the conjunction characterisation applied to the sample
listing with type filter "casa", in both variants. -/
theorem c5_enum_equality_conjunction_witness :
    sampleCasa ∈ filterPropertiesList { propertyType := some "casa" } [sampleCasa] ∧
    sampleCasa ∈ findAll (some { propertyType := some "casa" }) [sampleCasa] := by
  have h := c5_enum_equality_conjunction { propertyType := some "casa" } "casa" rfl
    (by decide) [sampleCasa] [sampleCasa] sampleCasa sampleCasa
  exact ⟨h.1.mpr ⟨by decide, by decide, by decide⟩, h.2.mpr ⟨by decide, by decide, by decide⟩⟩

/-- C6 (amended): for every positive price `P`, the criteria
`minPrice = maxPrice = P` match exactly the listings priced `P` in both
variants (bounds inclusive); the local variant additionally ignores
non-positive bounds, so for `P ≤ 0` the equivalence holds only remotely. -/
theorem c6_price_point_characterisation (P : Int) (hP : 0 < P)
    (props db : List Property) (p q : Property) :
    (p ∈ filterPropertiesList (priceOnly P) props ↔ p ∈ props ∧ p.price = P) ∧
    (q ∈ findAll (some (priceOnly P)) db ↔ q ∈ db ∧ q.price = P) := by
  constructor
  · rw [mem_filterPropertiesList]
    have hchar : localPasses (priceOnly P) p = true ↔ p.price = P := by
      unfold localPasses priceOnly searchPass typePass operationPass minPricePass
        maxPricePass minBedroomsPass cityPass
      simp only [jsGtZero, jsGeNum, jsLeNum, hP, decide_eq_true_eq, if_true, Bool.and_eq_true,
        Bool.true_and, Bool.and_true, and_assoc, decide_True, if_pos]
      omega
    rw [hchar]
  · rw [mem_findAll]
    have hchar : whereMatches (buildWhereClause (some (priceOnly P))) q = true ↔
        q.price = P := by
      unfold whereMatches buildWhereClause priceOnly wTypeEval wOpEval wPriceEval wBedEval
        wCityEval wSearchEval priceCondHolds
      simp [strTruthy, jsGeNum, jsLeNum]
      omega
    rw [hchar]

/-- C6 counterexample: at `P = 0` the local variant skips both bounds
(`> 0` guards), so a listing priced 250000 is matched by
`minPrice = maxPrice = 0`, refuting the claim for the local variant. -/
theorem c6_counterexample :
    sampleCasa ∈ filterPropertiesList (priceOnly 0) [sampleCasa] ∧
    sampleCasa.price ≠ 0 := by
  decide

/-- C6 witness: `minPrice = maxPrice = 250000` selects the sample listing
priced 250000 in both variants, out of a two-listing collection. -/
theorem c6_price_point_characterisation_witness :
    sampleCasa ∈ filterPropertiesList (priceOnly 250000) [sampleBarato, sampleCasa] ∧
    sampleCasa ∈ findAll (some (priceOnly 250000)) [sampleBarato, sampleCasa] := by
  have h := c6_price_point_characterisation 250000 (by norm_num)
    [sampleBarato, sampleCasa] [sampleBarato, sampleCasa] sampleCasa sampleCasa
  exact ⟨h.1.mpr ⟨by decide, by decide⟩, h.2.mpr ⟨by decide, by decide⟩⟩

/-- C2 (amended): an out-of-enum category value is NOT dropped by the
decode step — it is passed through as an exact equality constraint, so over
any table whose rows carry only valid enum types the result is empty (and
no error is raised; the model is total). -/
theorem c2_invalid_enum_filters_all (v : String) (hne : v ≠ "") (hv : v ∉ PROPERTY_TYPES)
    (q : QueryParams) (hq : q.propertyType = some v)
    (db : List Property) (hdb : ∀ p ∈ db, p.propertyType ∈ PROPERTY_TYPES) :
    getAllPropertiesRemote q db = [] := by
  unfold getAllPropertiesRemote findAll
  have hbeq : (v == "") = false := beq_eq_false_iff_ne.mpr hne
  have htype : (buildWhereClause (some (decodeFilters q))).propertyType = some v := by
    simp [buildWhereClause, decodeFilters, hq, strTruthy, hbeq]
  have hfil : db.filter (whereMatches (buildWhereClause (some (decodeFilters q)))) = [] := by
    rw [List.filter_eq_nil_iff]
    intro p hp h
    simp only [whereMatches, wTypeEval, htype, Bool.and_eq_true] at h
    have hA : (p.propertyType == v) = true := h.1.1.1.1.1
    have hmem := hdb p hp
    rw [eq_of_beq hA] at hmem
    exact hv hmem
  rw [hfil]
  rfl

/-- C2 counterexample: `propertyType=invalid-enum-value` yields the empty
result over a one-listing table, while the same request without the
parameter yields the full table — refuting "the result set is not filtered
by that field". -/
theorem c2_counterexample :
    getAllPropertiesRemote { propertyType := some "invalid-enum-value" } [sampleCasa] = [] ∧
    getAllPropertiesRemote {} [sampleCasa] = [sampleCasa] := by
  decide

/-- C2 witness: the amended statement applied at the concrete invalid value
over the sample table. -/
theorem c2_invalid_enum_filters_all_witness :
    getAllPropertiesRemote { propertyType := some "invalid-enum-value" } [sampleBarato] = [] :=
  c2_invalid_enum_filters_all "invalid-enum-value" (by decide) (by decide) _ rfl _ (by decide)

/-- C3 (amended): a non-numeric numeric parameter is NOT treated as an
absent bound — `Number()` yields `NaN`, the bound is built into the query,
and no row satisfies a `NaN` comparison, so the result is empty (no error
is raised); this holds for each of `minPrice`, `maxPrice`, `minBedrooms`. -/
theorem c3_nonnumeric_bound_empties_result :
    (∀ (q : QueryParams) (s : String) (db : List Property),
       q.minPrice = some s → s ≠ "" → parseJsNumber s = .nan →
       getAllPropertiesRemote q db = []) ∧
    (∀ (q : QueryParams) (s : String) (db : List Property),
       q.maxPrice = some s → s ≠ "" → parseJsNumber s = .nan →
       getAllPropertiesRemote q db = []) ∧
    (∀ (q : QueryParams) (s : String) (db : List Property),
       q.minBedrooms = some s → s ≠ "" → parseJsNumber s = .nan →
       getAllPropertiesRemote q db = []) := by
  refine ⟨?_, ?_, ?_⟩
  · intro q s db hq hne hnan
    have hbeq : (s == "") = false := beq_eq_false_iff_ne.mpr hne
    have hmin : (decodeFilters q).minPrice = some JsNumber.nan := by
      simp [decodeFilters, hq, hbeq, hnan]
    have hprice : (buildWhereClause (some (decodeFilters q))).price =
        some { gte := some JsNumber.nan, lte := (decodeFilters q).maxPrice } := by
      simp [buildWhereClause, hmin]
    have hfil : db.filter (whereMatches (buildWhereClause (some (decodeFilters q)))) = [] := by
      rw [List.filter_eq_nil_iff]
      intro p hp h
      simp only [whereMatches, wPriceEval, hprice, Bool.and_eq_true] at h
      have hpc := h.1.1.1.2
      simp [priceCondHolds, jsGeNum] at hpc
    unfold getAllPropertiesRemote findAll
    rw [hfil]
    rfl
  · intro q s db hq hne hnan
    have hbeq : (s == "") = false := beq_eq_false_iff_ne.mpr hne
    have hmax : (decodeFilters q).maxPrice = some JsNumber.nan := by
      simp [decodeFilters, hq, hbeq, hnan]
    have hprice : (buildWhereClause (some (decodeFilters q))).price =
        some { gte := (decodeFilters q).minPrice, lte := some JsNumber.nan } := by
      simp [buildWhereClause, hmax]
    have hfil : db.filter (whereMatches (buildWhereClause (some (decodeFilters q)))) = [] := by
      rw [List.filter_eq_nil_iff]
      intro p hp h
      simp only [whereMatches, wPriceEval, hprice, Bool.and_eq_true] at h
      have hpc := h.1.1.1.2
      simp [priceCondHolds, jsLeNum] at hpc
    unfold getAllPropertiesRemote findAll
    rw [hfil]
    rfl
  · intro q s db hq hne hnan
    have hbeq : (s == "") = false := beq_eq_false_iff_ne.mpr hne
    have hbed : (decodeFilters q).minBedrooms = some JsNumber.nan := by
      simp [decodeFilters, hq, hbeq, hnan]
    have hbw : (buildWhereClause (some (decodeFilters q))).bedrooms = some JsNumber.nan := by
      simp [buildWhereClause, hbed]
    have hfil : db.filter (whereMatches (buildWhereClause (some (decodeFilters q)))) = [] := by
      rw [List.filter_eq_nil_iff]
      intro p hp h
      simp only [whereMatches, wBedEval, hbw, Bool.and_eq_true] at h
      have hpc := h.1.1.2
      simp [jsGeNum] at hpc
    unfold getAllPropertiesRemote findAll
    rw [hfil]
    rfl

/-- C3 counterexample: the request `minPrice=abc` yields the empty result
over a one-listing table, while the same request with that malformed
parameter removed — the empty parameter bag — yields the full table,
refuting "the result equals the result of the same request without that
parameter" (and the decode step has not treated the bound as absent). -/
theorem c3_counterexample :
    getAllPropertiesRemote { minPrice := some "abc" } [sampleCasa] = [] ∧
    getAllPropertiesRemote {} [sampleCasa] = [sampleCasa] := by
  decide

/-- C3 witness: the amended statement applied to concrete non-numeric
values of each of the three numeric parameters. -/
theorem c3_nonnumeric_bound_empties_result_witness :
    getAllPropertiesRemote { minPrice := some "abc" } [sampleCasa] = [] ∧
    getAllPropertiesRemote { maxPrice := some "xyz" } [sampleBarato] = [] ∧
    getAllPropertiesRemote { minBedrooms := some "dos" } [sampleCityOnly] = [] :=
  ⟨c3_nonnumeric_bound_empties_result.1 _ "abc" _ rfl (by decide) (by decide),
   c3_nonnumeric_bound_empties_result.2.1 _ "xyz" _ rfl (by decide) (by decide),
   c3_nonnumeric_bound_empties_result.2.2 _ "dos" _ rfl (by decide) (by decide)⟩

/-- C8 (amended): decode after encode is the identity on every criteria
whose enum fields carry values of the closed sets AND whose populated text
fields (search, city) are non-empty; a populated empty-string text field is
dropped by the encoder's truthiness test and does not survive the round
trip. -/
theorem c8_decode_encode_roundtrip (filters : PropertyFilters)
    (hsearch : filters.search ≠ some "") (hcity : filters.city ≠ some "")
    (htype : ∀ t, filters.propertyType = some t → t ∈ PROPERTY_TYPES)
    (hop : ∀ t, filters.operationType = some t → t ∈ OPERATION_TYPES) :
    decodeFilters (encodeFilters filters) = filters := by
  obtain ⟨se, pt, ot, mi, ma, be, ci⟩ := filters
  simp only [decodeFilters, encodeFilters, PropertyFilters.mk.injEq]
  refine ⟨?_, ?_, ?_, ?_, ?_, ?_, ?_⟩
  · cases se with
    | none => simp [strTruthy]
    | some s =>
      have hs : s ≠ "" := fun h => hsearch (by rw [h])
      simp [strTruthy, beq_eq_false_iff_ne.mpr hs]
  · cases pt with
    | none => simp [strTruthy]
    | some t =>
      have ht := htype t rfl
      have hne : t ≠ "" := by
        intro h
        subst h
        simp [PROPERTY_TYPES] at ht
      simp [strTruthy, beq_eq_false_iff_ne.mpr hne]
  · cases ot with
    | none => simp [strTruthy]
    | some t =>
      have ht := hop t rfl
      have hne : t ≠ "" := by
        intro h
        subst h
        simp [OPERATION_TYPES] at ht
      simp [strTruthy, beq_eq_false_iff_ne.mpr hne]
  · cases mi with
    | none => rfl
    | some x => simp [jsNumberToString_ne_empty x, parse_print]
  · cases ma with
    | none => rfl
    | some x => simp [jsNumberToString_ne_empty x, parse_print]
  · cases be with
    | none => rfl
    | some x => simp [jsNumberToString_ne_empty x, parse_print]
  · cases ci with
    | none => simp [strTruthy]
    | some s =>
      have hs : s ≠ "" := fun h => hcity (by rw [h])
      simp [strTruthy, beq_eq_false_iff_ne.mpr hs]

/-- C8 counterexample: a criteria whose search field is the (populated)
empty string does not round-trip — the encoder drops it and the decode of
the encoding is the empty criteria. -/
theorem c8_counterexample :
    decodeFilters (encodeFilters { search := some "" }) ≠
      ({ search := some "" } : PropertyFilters) := by
  decide

/-- C8 witness: the round trip applied to a fully-populated enum-valid
criteria with non-empty text fields. -/
theorem c8_decode_encode_roundtrip_witness :
    decodeFilters (encodeFilters sampleCriteria) = sampleCriteria := by
  refine c8_decode_encode_roundtrip sampleCriteria (by decide) (by decide) ?_ ?_
  · intro t ht
    injection ht with h
    rw [← h]
    decide
  · intro t ht
    injection ht with h
    rw [← h]
    decide

end RealEstate
